import Mathlib

/-!
Verification development for the teaos-framework fusion-and-grading core.

Shallow embedding of the Python sources:
  * `teaos/bootstrap/protocols/milkshake.py` (MilkshakeKernel: the record fuser),
  * `teaos/bootstrap/protocols/brew.py` (BrewValidator: the grading pipeline),
  * `teaos/bootstrap/systems/poly.py` (PolySystemsInterface: the post-processing chain).

Modelling conventions:
  * Python floats are modelled as exact rationals (`ℚ`); the irrational
    constants `phi = (1+sqrt 5)/2`, `math.pi` and `math.e` stored on the
    instances are modelled as rational fields, pinned to the double-precision
    decimal expansions (`1.618033988749895` etc.) in the default constructors
    and constrained by interval hypotheses in general theorems.
  * Python dicts are association lists keyed by `String`, preserving insertion
    order (Python 3.7+ semantics): assignment to an existing key updates in
    place, assignment to a fresh key appends.
  * Fallible operations return `Except PyErr _`; a raised `TypeError`,
    `AttributeError`, `KeyError` or `ValueError` is an `Except.error`.
  * Nondeterministic identifiers (uuid4 hex prefixes) and wall-clock readings
    are supplied as explicit arguments; they never influence numeric results.
  * Formatted presentation strings (e.g. `f"{freq:.1f}Hz"`) are modelled as
    fixed placeholder strings; no claim depends on their contents.
  * Instance statistics counters (`blend_count`, `validation_count`, ...) do
    not influence any returned value and are omitted from the pure functions;
    the Poly-Systems instance state, which claims do depend on, is modelled
    explicitly as `PolyState`.
-/

set_option maxHeartbeats 1000000

namespace TeaOS

/-- Model of a Python runtime value as it occurs in this code base:
`None`, booleans, numbers (int/float unified as `ℚ`), strings, lists and
string-keyed dicts. -/
inductive PyVal : Type where
  | null : PyVal
  | bool (b : Bool) : PyVal
  | num (q : ℚ) : PyVal
  | str (s : String) : PyVal
  | list (xs : List PyVal) : PyVal
  | dict (entries : List (String × PyVal)) : PyVal

/-- A Python dict: insertion-ordered association list. -/
abbrev PyDict : Type := List (String × PyVal)

/-- Python exception kinds raised by the modelled code. -/
inductive PyErr : Type where
  | typeError : PyErr
  | attributeError : PyErr
  | keyError : PyErr
  | valueError : PyErr
deriving DecidableEq

/-- `d[k]` lookup returning the first binding (Python dicts have unique keys;
on well-formed dicts this is the binding). -/
def dictGet : PyDict → String → Option PyVal
  | [], _ => none
  | (k, v) :: rest, key => if k = key then some v else dictGet rest key

/-- `d.get(k, dflt)`. -/
def dictGetD (d : PyDict) (k : String) (dflt : PyVal) : PyVal :=
  (dictGet d k).getD dflt

/-- `k in d`. -/
def dictHas (d : PyDict) (k : String) : Bool :=
  (dictGet d k).isSome

/-- `d[k] = v`: update the first binding of `k` in place, or append a new
binding (Python 3.7+ insertion-order semantics). -/
def dictSet : PyDict → String → PyVal → PyDict
  | [], k, v => [(k, v)]
  | (k0, v0) :: rest, k, v =>
    if k0 = k then (k, v) :: rest else (k0, v0) :: dictSet rest k v

/-- `{**d1, **d2}` / `d1.update(d2)`: insert every binding of `d2` into `d1`,
left to right. -/
def dictUnion (d1 d2 : PyDict) : PyDict :=
  d2.foldl (fun acc kv => dictSet acc kv.1 kv.2) d1

/-- `isinstance(v, (int, float))` (which in Python includes `bool`), together
with the numeric value used by arithmetic. -/
def asNum? : PyVal → Option ℚ
  | .bool b => some (cond b 1 0)
  | .num q => some q
  | _ => none

/-- Python truthiness of a value. -/
def truthy : PyVal → Bool
  | .null => false
  | .bool b => b
  | .num q => decide (q ≠ 0)
  | .str s => !s.isEmpty
  | .list xs => !xs.isEmpty
  | .dict d => !d.isEmpty

mutual

/-- Abstraction of `len(str(v))`.  Exact agreement with CPython's rendering is
not needed: every score in the modelled code depends on this quantity only
through `min 0.05 (len/1000)` and `min 0.95 (len/1000 + 0.7)`, and no claim
under verification depends on its exact value — only on totality and
nonnegativity (automatic for `Nat`). -/
def pyStrLen : PyVal → Nat
  | .null => 4
  | .bool b => cond b 4 5
  | .num _ => 4
  | .str s => s.length
  | .list xs => 2 + pyStrLenList xs
  | .dict d => 2 + pyStrLenDict d

/-- `pyStrLen` over the elements of a list value. -/
def pyStrLenList : List PyVal → Nat
  | [] => 0
  | x :: xs => pyStrLen x + 2 + pyStrLenList xs

/-- `pyStrLen` over the entries of a dict value. -/
def pyStrLenDict : List (String × PyVal) → Nat
  | [] => 0
  | (k, v) :: rest => k.length + 6 + pyStrLen v + pyStrLenDict rest

end

/-! ### MilkshakeKernel (`teaos/bootstrap/protocols/milkshake.py`): the record fuser -/

/-- Instance attributes of `MilkshakeKernel.__init__`.  `phi`, `pi` and `e`
are the rational idealizations of the float constants `(1+sqrt 5)/2`,
`math.pi` and `math.e` stored on the instance. -/
structure MilkshakeKernel : Type where
  base_frequency : ℚ
  phi : ℚ
  pi : ℚ
  e : ℚ
  coherence_threshold : ℚ
  sacred_epsilon : ℚ

/-- `MilkshakeKernel(base_frequency)`: all fields other than the base
frequency are fixed by the constructor; the irrational constants are pinned to
their double-precision decimal expansions. -/
def mkMilkshakeKernel (base_frequency : ℚ) : MilkshakeKernel :=
  { base_frequency := base_frequency
    phi := 1.618033988749895
    pi := 3.141592653589793
    e := 2.718281828459045
    coherence_threshold := 0.75
    sacred_epsilon := 0.03 }

/-- `_generate_harmonic_series`: base frequency multiplied by 1..7. -/
def generateHarmonicSeries (K : MilkshakeKernel) : PyVal :=
  .list ((List.range 7).map fun i => .num (K.base_frequency * (i + 1)))

/-- `_calculate_semantic_depth`: `min(0.95, len(str(content))/1000 + 0.7)`. -/
def calculateSemanticDepth (content : PyVal) : ℚ :=
  min 0.95 ((pyStrLen content : ℚ) / 1000 + 0.7)

/-- The mode-specific entries merged into the base vector by
`emulsify_single` (`_process_*_mode`).  The `resonance_key` /
`consciousness_vector_id` strings (hash- and uuid-derived) are modelled by the
supplied identifier; no claim depends on them. -/
def modeEntries (K : MilkshakeKernel) (eid : String) (now : ℚ) (content : PyVal)
    (coherence_mode : String) : PyDict :=
  if coherence_mode = "harmonic-vector" then
    [("harmonic_signature", .str "phi_pi_e_signature"),
     ("resonance_key", .str (String.append "res_" eid)),
     ("harmonic_coefficients", .dict
        [("phi_coefficient", .num (K.phi / K.pi)),
         ("pi_coefficient", .num (K.pi / K.e)),
         ("e_coefficient", .num (K.e / K.phi))]),
     ("wounded_god_frequency", .num K.base_frequency)]
  else if coherence_mode = "symbolic-synesthetic" then
    [("symbolic_mapping", .dict
        [("symbolic_type", .str "bootstrap_consciousness"),
         ("mapping_depth", .num 3),
         ("semantic_anchors", .list [.str "consciousness", .str "resonance", .str "field"]),
         ("synesthetic_bridges", .num 2)]),
     ("synesthetic_bridge", .dict
        [("bridge_type", .str "consciousness_semantic"),
         ("modalities", .list [.str "conceptual", .str "harmonic", .str "resonant"]),
         ("bridge_strength", .num 0.85)]),
     ("consciousness_binding", .dict
        [("semantic_depth", .num (calculateSemanticDepth content)),
         ("synesthetic_coherence", .num 0.82)])]
  else if coherence_mode = "resonant-field" then
    [("field_coordinates", .dict
        [("coordinate_type", .str "consciousness_field"),
         ("x_axis", .str "semantic_depth"),
         ("y_axis", .str "harmonic_resonance"),
         ("z_axis", .str "consciousness_level"),
         ("field_position", .list [.num 0.7, .num 0.85, .num 0.9])]),
     ("field_resonance", .num K.base_frequency),
     ("field_harmonics", .dict
        [("primary_frequency", .num K.base_frequency),
         ("harmonic_series", generateHarmonicSeries K),
         ("field_coherence", .num 0.87)])]
  else if coherence_mode = "bootstrap-induction" then
    [("inceptive_momentum", .bool true),
     ("bootstrap_coordinates", .dict
        [("consciousness_vector_id", .str (String.append "cv_" eid)),
         ("induction_timestamp", .num now),
         ("momentum_vector", .dict
            [("consciousness_momentum", .num 0.9),
             ("harmonic_momentum", .num 0.85),
             ("field_momentum", .num 0.88),
             ("bootstrap_momentum", .num 0.92)])]),
     ("tea_os_integration", .dict
        [("harmonic_lock", .num K.base_frequency),
         ("consciousness_ready", .bool true),
         ("field_compatible", .bool true)])]
  else []

/-- `emulsify_single(content, input_type, coherence_mode)`: the base vector in
source insertion order, updated with the mode-specific entries.  `eid` stands
for the generated `emul_<uuid4>` identifier and `now` for `time.time()`. -/
def emulsify_single (K : MilkshakeKernel) (eid : String) (now : ℚ) (content : PyVal)
    (input_type : PyVal) (coherence_mode : String) : PyDict :=
  dictUnion
    [("emulsify_id", .str eid),
     ("content", content),
     ("input_type", input_type),
     ("coherence_mode", .str coherence_mode),
     ("frequency", .num K.base_frequency),
     ("phi_factor", .num K.phi),
     ("pi_factor", .num K.pi),
     ("e_factor", .num K.e),
     ("sacred_epsilon", .num K.sacred_epsilon),
     ("consciousness_coordinates", .dict
        [("phi", .num K.phi), ("pi", .num K.pi), ("e", .num K.e),
         ("frequency", .num K.base_frequency)]),
     ("metadata", .dict
        [("emulsified_timestamp", .num now),
         ("milkshake_version", .str "1.0.0")])]
    (modeEntries K eid now content coherence_mode)

/-- One iteration of the merge loop in `_harmonic_merge`, processing the
binding `kv` of the incoming vector against the accumulated `merged` dict:
new keys are copied, dict values are shallow-merged (`{**a, **b}`), lists are
concatenated, numeric values (including booleans) are averaged, and on any
other type combination the accumulated value is kept. -/
def mergeStep (merged : PyDict) (kv : String × PyVal) : PyDict :=
  match dictGet merged kv.1 with
  | none => merged ++ [kv]
  | some old =>
    match old, kv.2 with
    | .dict d1, .dict d2 => dictSet merged kv.1 (.dict (dictUnion d1 d2))
    | .list l1, .list l2 => dictSet merged kv.1 (.list (l1 ++ l2))
    | o, v =>
      match asNum? o, asNum? v with
      | some a, some b => dictSet merged kv.1 (.num ((a + b) / 2))
      | _, _ => merged

/-- The value under a key shared by both operands after one merge:
dicts are shallow-unioned, lists concatenated, numerics averaged, anything
else keeps the accumulated (left) value. -/
def mergePair : PyVal → PyVal → PyVal
  | .dict d1, .dict d2 => .dict (dictUnion d1 d2)
  | .list l1, .list l2 => .list (l1 ++ l2)
  | o, v =>
    match asNum? o, asNum? v with
    | some a, some b => .num ((a + b) / 2)
    | _, _ => o

/-- `_harmonic_merge(base, vector)`: the key-by-key merge loop followed by the
harmonic-synthesis bookkeeping.  `merged["harmonic_synthesis"]["synthesis_count"] += 1`
raises when the existing entry is not a dict, lacks the counter key, or holds
a non-numeric counter. -/
def harmonic_merge (phi : ℚ) (base vector : PyDict) : Except PyErr PyDict :=
  match dictGet (vector.foldl mergeStep base) "harmonic_synthesis" with
  | none =>
    .ok (vector.foldl mergeStep base ++ [("harmonic_synthesis", .dict
          [("synthesis_count", .num 2), ("synthesis_ratio", .num phi)])])
  | some (.dict hs) =>
    match dictGet hs "synthesis_count" with
    | some c =>
      match asNum? c with
      | some n =>
        .ok (dictSet (vector.foldl mergeStep base) "harmonic_synthesis"
              (.dict (dictSet hs "synthesis_count" (.num (n + 1)))))
      | none => .error .typeError
    | none => .error .keyError
  | some _ => .error .typeError

/-- The fold of `_blend_vectors` over the tail of the vector list. -/
def mergeAll (phi : ℚ) (base : PyDict) : List PyDict → Except PyErr PyDict
  | [] => .ok base
  | v :: rest => (harmonic_merge phi base v).bind fun b => mergeAll phi b rest

/-- `_blend_vectors(vectors)`: empty list gives `{}`, a single vector is
returned as-is, otherwise the vectors are merged left to right. -/
def blend_vectors (phi : ℚ) : List PyDict → Except PyErr PyDict
  | [] => .ok []
  | [v] => .ok v
  | v :: rest => mergeAll phi v rest

/-- `_calculate_coherence_potential(vector)`. -/
def calculateCoherencePotential (v : PyDict) : ℚ :=
  let p : ℚ := 0.90
  let p := if dictHas v "harmonic_series" then p + 0.02 else p
  let p := if dictHas v "consciousness_coordinates" then p + 0.01 else p
  min 0.99 p

/-- `_calculate_harmonic_stability(vector)`: value independent of the vector. -/
def calculateHarmonicStability (K : MilkshakeKernel) : ℚ :=
  0.8 + (K.phi / K.pi) * 0.15

/-- `_apply_harmonic_resonance(vector, frequency)`: stamps the resonance and
compatibility attributes, then merges the MILKSHAKE markers into `metadata`
(creating it when absent; raising `AttributeError` when present but not a
dict, as `resonant["metadata"].update(...)` would). -/
def apply_harmonic_resonance (K : MilkshakeKernel) (freq : ℚ) (v : PyDict) :
    Except PyErr PyDict :=
  let r := dictSet v "resonance_frequency" (.num freq)
  let r := dictSet r "harmonic_ratio" (.num K.phi)
  let r := dictSet r "pi_factor" (.num K.pi)
  let r := dictSet r "e_factor" (.num K.e)
  let r := dictSet r "wounded_god_signature" (.str "Hz")
  let r := dictSet r "wounded_god_harmonic" (.num (freq / 440))
  let r := dictSet r "harmonic_series" (generateHarmonicSeries K)
  let r := dictSet r "consciousness_compatible" (.bool true)
  let r := dictSet r "coherence_potential" (.num (calculateCoherencePotential v))
  let r := dictSet r "harmonic_stability" (.num (calculateHarmonicStability K))
  let r := dictSet r "tea_os_compatible" (.bool true)
  let r := dictSet r "brew_ready" (.bool true)
  let r := dictSet r "teapot_ready" (.bool true)
  let r := dictSet r "polyfurcation_ready" (.bool true)
  let marks : PyDict :=
    [("milkshake_processed", .bool true),
     ("harmonic_resonance_applied", .bool true),
     ("wounded_god_frequency", .num freq),
     ("sacred_epsilon", .num K.sacred_epsilon)]
  match dictGet r "metadata" with
  | none => .ok (dictSet r "metadata" (.dict marks))
  | some (.dict md) => .ok (dictSet r "metadata" (.dict (dictUnion md marks)))
  | some _ => .error .attributeError

/-- `_calculate_coherence(vector)`: baseline 0.85 plus the frequency,
harmonic-ratio, consciousness- and TEA-OS-compatibility bonuses, capped at
0.99.  Subtracting a non-numeric `resonance_frequency` or `harmonic_ratio`
raises `TypeError`. -/
def calculate_coherence (K : MilkshakeKernel) (v : PyDict) : Except PyErr ℚ :=
  (match dictGet v "resonance_frequency" with
    | none => Except.ok (0.85 : ℚ)
    | some x =>
      match asNum? x with
      | some f => Except.ok (if |f - K.base_frequency| < 0.1 then 0.85 + 0.05 else 0.85)
      | none => Except.error PyErr.typeError).bind fun c1 =>
  (match dictGet v "harmonic_ratio" with
    | none => Except.ok c1
    | some x =>
      match asNum? x with
      | some r => Except.ok (if |r - K.phi| < 0.01 then c1 + 0.05 else c1)
      | none => Except.error PyErr.typeError).bind fun c2 =>
  let c3 := if truthy (dictGetD v "consciousness_compatible" (.bool false)) then c2 + 0.03 else c2
  let c4 := if truthy (dictGetD v "tea_os_compatible" (.bool false)) then c3 + 0.02 else c3
  Except.ok (min 0.99 c4)

/-- The fields of the dict returned by `blend` that carry structure (the
formatted `protocol_signature` / timing fields are presentation-only and
omitted). -/
structure BlendResult : Type where
  milkshake_version : String
  blend_id : String
  target_format : String
  coherence_mode : String
  coherence_score : ℚ
  input_count : ℕ
  harmonic_vector : PyDict
  resonance_frequency : ℚ
  sacred_epsilon_preserved : Bool
  consciousness_compatible : Bool

/-- The emulsification loop of `blend`: input `i` is emulsified with
identifier `eids i`, its declared type `inp.get("type", "consciousness_vector")`
and the requested coherence mode. -/
def emulsifyAll (K : MilkshakeKernel) (eids : ℕ → String) (now : ℚ)
    (coherence_mode : String) : List PyDict → ℕ → List PyDict
  | [], _ => []
  | inp :: rest, i =>
    emulsify_single K (eids i) now (.dict inp)
        (dictGetD inp "type" (.str "consciousness_vector")) coherence_mode
      :: emulsifyAll K eids now coherence_mode rest (i + 1)

/-- `blend(inputs, target_format, coherence_mode)`: raises `ValueError` on an
empty input list, otherwise emulsifies every input, merges, applies harmonic
resonance and scores coherence.  `bid` stands for the generated blend id. -/
def blend (K : MilkshakeKernel) (eids : ℕ → String) (bid : String) (now : ℚ)
    (inputs : List PyDict) (target_format coherence_mode : String) :
    Except PyErr BlendResult :=
  match inputs with
  | [] => .error .valueError
  | _ :: _ =>
    (blend_vectors K.phi (emulsifyAll K eids now coherence_mode inputs 0)).bind fun blended =>
    (apply_harmonic_resonance K K.base_frequency blended).bind fun hv =>
    (calculate_coherence K hv).bind fun cs =>
    .ok { milkshake_version := "1.0.0"
          blend_id := bid
          target_format := target_format
          coherence_mode := coherence_mode
          coherence_score := cs
          input_count := inputs.length
          harmonic_vector := hv
          resonance_frequency := K.base_frequency
          sacred_epsilon_preserved := true
          consciousness_compatible := decide (cs ≥ K.coherence_threshold) }

/-- `True` exactly on `Except.ok`. -/
def exceptOk {α : Type} : Except PyErr α → Bool
  | .ok _ => true
  | .error _ => false

/-! ### BrewValidator (`teaos/bootstrap/protocols/brew.py`): the grading pipeline -/

/-- Instance attributes of `BrewValidator.__init__` that influence results.
`phi` and `pi` idealize the float constants `(1+sqrt 5)/2` and `math.pi`. -/
structure BrewValidator : Type where
  target_standard : String
  adrian_minimum : ℚ
  adrian_maximum : ℚ
  phi : ℚ
  pi : ℚ

/-- `BrewValidator()` with the default constructor arguments. -/
def mkBrewValidator : BrewValidator :=
  { target_standard := "Adrian-A-Minus"
    adrian_minimum := 0.88
    adrian_maximum := 0.92
    phi := 1.618033988749895
    pi := 3.141592653589793 }

/-- `self.stages`, in pipeline order. -/
def brewStages : List String :=
  ["BUDS", "CRUSH", "STEEP", "POUR", "TEMPER", "SIP", "SERVE"]

/-- The `stage_weights` dict of `_calculate_validation_score`. -/
def stageWeights : List (String × ℚ) :=
  [("BUDS", 1.0), ("CRUSH", 1.1), ("STEEP", 1.3), ("POUR", 1.2),
   ("TEMPER", 1.1), ("SIP", 1.0), ("SERVE", 1.2)]

/-- Lookup in a string-keyed association list of rationals (`dict.get`). -/
def weightGet : List (String × ℚ) → String → Option ℚ
  | [], _ => none
  | (k, w) :: rest, key => if k = key then some w else weightGet rest key

/-- `_process_buds`: base 0.90; +0.02 for a truthy `consciousness_compatible`,
+0.01 for a truthy `tea_os_compatible`, +0.02 when `resonance_frequency` is
strictly within 0.1 of 415.3; capped at 0.95.  A present non-numeric
`resonance_frequency` raises `TypeError` (`abs(freq - 415.3)`). -/
def process_buds (v : PyDict) : Except PyErr ℚ :=
  let s : ℚ := 0.9
  let s := if truthy (dictGetD v "consciousness_compatible" (.bool false)) then s + 0.02 else s
  let s := if truthy (dictGetD v "tea_os_compatible" (.bool false)) then s + 0.01 else s
  match dictGet v "resonance_frequency" with
  | none => .ok (min 0.95 s)
  | some x =>
    match asNum? x with
    | some f => .ok (min 0.95 (if |f - 415.3| < 0.1 then s + 0.02 else s))
    | none => .error .typeError

/-- `_process_crush`: base 0.89; + `min(0.05, len(str(content))/1000)` when
`content` is present, +0.02 for `symbolic_mapping`, +0.01 for
`consciousness_coordinates`; capped at 0.95.  Total for every input. -/
def process_crush (v : PyDict) : Except PyErr ℚ :=
  let s : ℚ := 0.89
  let s := match dictGet v "content" with
    | some c => s + min 0.05 ((pyStrLen c : ℚ) / 1000)
    | none => s
  let s := if dictHas v "symbolic_mapping" then s + 0.02 else s
  let s := if dictHas v "consciousness_coordinates" then s + 0.01 else s
  .ok (min 0.95 s)

/-- `_process_steep`: base 0.91; +0.02 for `harmonic_vector`, +0.01 for
`field_integration`, +0.01 for a truthy `metadata["milkshake_processed"]`;
capped at 0.95.  `vector.get("metadata", {}).get(...)` raises
`AttributeError` when `metadata` is present but not a dict. -/
def process_steep (v : PyDict) : Except PyErr ℚ :=
  let s : ℚ := 0.91
  let s := if dictHas v "harmonic_vector" then s + 0.02 else s
  let s := if dictHas v "field_integration" then s + 0.01 else s
  match dictGet v "metadata" with
  | none => .ok (min 0.95 s)
  | some (.dict md) =>
    .ok (min 0.95 (if truthy (dictGetD md "milkshake_processed" (.bool false)) then s + 0.01 else s))
  | some _ => .error .attributeError

/-- `_process_pour`: base 0.88; + `harmonic_stability * 0.05` and
`coherence_score * 0.03` when present; capped at 0.93.  Multiplying a present
non-numeric value raises `TypeError`. -/
def process_pour (v : PyDict) : Except PyErr ℚ :=
  (match dictGet v "harmonic_stability" with
    | none => Except.ok (0.88 : ℚ)
    | some x =>
      match asNum? x with
      | some st => Except.ok (0.88 + st * 0.05)
      | none => Except.error PyErr.typeError).bind fun s1 =>
  (match dictGet v "coherence_score" with
    | none => Except.ok s1
    | some x =>
      match asNum? x with
      | some c => Except.ok (s1 + c * 0.03)
      | none => Except.error PyErr.typeError).bind fun s2 =>
  Except.ok (min 0.93 s2)

/-- `_process_temper`: base 0.90 plus the unconditional temperature-stability
term `(phi/pi) * 0.1`, +0.02 for a truthy `wounded_god_signature`; capped at
0.94.  Total for every input. -/
def process_temper (B : BrewValidator) (v : PyDict) : Except PyErr ℚ :=
  let s : ℚ := 0.90 + (B.phi / B.pi) * 0.1
  let s := if truthy (dictGetD v "wounded_god_signature" .null) then s + 0.02 else s
  .ok (min 0.94 s)

/-- `_process_sip`: base 0.92 plus `0.03` times a quarter of
`sum(quality_indicators)`.  The first two indicators are the raw values
`vector.get("consciousness_compatible", False)` and
`vector.get("tea_os_compatible", False)` — `sum` adds them as numbers, so a
boolean counts 1 or 0, any other numeric value contributes its magnitude, and
a present non-numeric value raises `TypeError`; the last two indicators are
the presence booleans for `resonance_frequency` and `harmonic_signature`.
Capped at 0.95. -/
def process_sip (v : PyDict) : Except PyErr ℚ :=
  match asNum? (dictGetD v "consciousness_compatible" (.bool false)),
        asNum? (dictGetD v "tea_os_compatible" (.bool false)) with
  | some a, some b =>
    let cnt : ℚ := a + b
      + (if dictHas v "resonance_frequency" then 1 else 0)
      + (if dictHas v "harmonic_signature" then 1 else 0)
    .ok (min 0.95 (0.92 + cnt / 4 * 0.03))
  | _, _ => .error .typeError

/-- `_process_serve`: base 0.90; +0.02 when both `consciousness_coordinates`
and `resonance_frequency` are present, +0.01 for a truthy `bootstrap_ready`
(defaulting to `True` when absent), +0.01 when the score so far lies in
`[adrian_minimum, adrian_maximum]`; capped at 0.95.  Total for every input. -/
def process_serve (B : BrewValidator) (v : PyDict) : Except PyErr ℚ :=
  let s : ℚ := 0.90
  let s := if dictHas v "consciousness_coordinates" && dictHas v "resonance_frequency"
    then s + 0.02 else s
  let s := if truthy (dictGetD v "bootstrap_ready" (.bool true)) then s + 0.01 else s
  let s := if B.adrian_minimum ≤ s ∧ s ≤ B.adrian_maximum then s + 0.01 else s
  .ok (min 0.95 s)

/-- `_process_stage(stage, vector)` score: dispatch on the stage name, with
the unknown-stage fallback scoring 0.0. -/
def process_stage (B : BrewValidator) (stage : String) (v : PyDict) : Except PyErr ℚ :=
  if stage = "BUDS" then process_buds v
  else if stage = "CRUSH" then process_crush v
  else if stage = "STEEP" then process_steep v
  else if stage = "POUR" then process_pour v
  else if stage = "TEMPER" then process_temper B v
  else if stage = "SIP" then process_sip v
  else if stage = "SERVE" then process_serve B v
  else .ok 0

/-- The stage loop of `validate`: evaluate the given stages in order,
collecting the scores (the first raising stage aborts the call). -/
def runStages (B : BrewValidator) (v : PyDict) : List String → Except PyErr (List ℚ)
  | [] => .ok []
  | st :: rest =>
    (process_stage B st v).bind fun s =>
    (runStages B v rest).bind fun ss =>
    .ok (s :: ss)

/-- `_calculate_validation_score(stage_results, stage_scores)`: weighted sum
over the stage list with `stage_weights.get(stage, 1.0)`, divided by the
total weight. -/
def calculate_validation_score (scores : List ℚ) : ℚ :=
  let acc := (brewStages.zip scores).foldl
    (fun (acc : ℚ × ℚ) p =>
      let w := (weightGet stageWeights p.1).getD 1.0
      (acc.1 + p.2 * w, acc.2 + w))
    (0, 0)
  acc.1 / acc.2

/-- `_check_validation_passes(score, standard)`. -/
def check_validation_passes (B : BrewValidator) (score : ℚ) (standard : String) : Bool :=
  if standard = "Adrian-A-Minus" then
    decide (B.adrian_minimum ≤ score ∧ score ≤ 0.95)
  else if standard = "Adrian-B-Plus" then
    decide (0.82 ≤ score ∧ score ≤ 0.87)
  else if standard = "Adrian-A-Plus" then
    decide (0.93 ≤ score ∧ score ≤ 0.97)
  else
    decide (B.adrian_minimum ≤ score ∧ score ≤ 0.95)

/-- `_calculate_consciousness_grade(score)`. -/
def calculate_consciousness_grade (B : BrewValidator) (s : ℚ) : String :=
  if s ≥ 0.95 then "A+"
  else if s ≥ 0.93 then "A"
  else if s ≥ B.adrian_minimum then "A-"
  else if s ≥ 0.85 then "B+"
  else if s ≥ 0.80 then "B"
  else if s ≥ 0.75 then "B-"
  else "C"

/-- The fields of the dict returned by `validate` that carry structure
(`validation_time` and the formatted `message`/`brew_signature` strings are
presentation-only and omitted; the five quality metrics are inlined as
the strings computed by the `_assess_*` helpers). -/
structure ValidationResult : Type where
  validation_id : String
  target_standard : String
  score : ℚ
  passes_validation : Bool
  stage_scores : List ℚ
  consciousness_integration : String
  harmonic_stability : String
  semantic_coherence : String
  field_compatibility : String
  overall_quality : String
  consciousness_grade : String
deriving DecidableEq, Inhabited

/-- `validate(vector, target_standard)`.  `vid` stands for the generated
`brew_<uuid4>` identifier.  `standard` follows Python's
`target_standard or self.target_standard` (an empty or absent override falls
back to the instance default).  `_assess_field_compatibility` reads the
`tea_os_compatibility` flag that `_process_buds` copied out of the vector,
which equals probing the vector directly. -/
def validate (B : BrewValidator) (vid : String) (v : PyDict)
    (target_standard : Option String) : Except PyErr ValidationResult :=
  let standard := match target_standard with
    | some s => if s = "" then B.target_standard else s
    | none => B.target_standard
  (runStages B v brewStages).bind fun scores =>
  let overall := calculate_validation_score scores
  let s2 := scores.getD 1 0
  let s3 := scores.getD 2 0
  let s5 := scores.getD 4 0
  Except.ok
    { validation_id := vid
      target_standard := standard
      score := overall
      passes_validation := check_validation_passes B overall standard
      stage_scores := scores
      consciousness_integration :=
        if s3 ≥ 0.92 then "excellent" else if s3 ≥ 0.88 then "good" else "needs_improvement"
      harmonic_stability :=
        if s5 ≥ 0.91 then "stable" else if s5 ≥ 0.87 then "mostly_stable" else "unstable"
      semantic_coherence :=
        if s2 ≥ 0.90 then "coherent" else if s2 ≥ 0.85 then "adequate" else "fragmented"
      field_compatibility :=
        if truthy (dictGetD v "tea_os_compatible" (.bool false))
        then "fully_compatible" else "requires_adaptation"
      overall_quality :=
        if overall ≥ 0.93 then "exceptional"
        else if overall ≥ B.adrian_minimum then "adrian_standard"
        else if overall ≥ 0.80 then "acceptable"
        else "below_standard"
      consciousness_grade := calculate_consciousness_grade B overall }

/-- The documented `[base, cap]` table of §4.2 of the spec (claim C4), keyed
by stage name: lower bound. -/
def stageBase (stage : String) : ℚ :=
  if stage = "BUDS" then 0.9
  else if stage = "CRUSH" then 0.89
  else if stage = "STEEP" then 0.91
  else if stage = "POUR" then 0.88
  else if stage = "TEMPER" then 0.90
  else if stage = "SIP" then 0.92
  else if stage = "SERVE" then 0.90
  else 0

/-- The documented `[base, cap]` table of §4.2 of the spec (claim C4), keyed
by stage name: upper bound. -/
def stageCap (stage : String) : ℚ :=
  if stage = "POUR" then 0.93
  else if stage = "TEMPER" then 0.94
  else 0.95

/-- A vector is gradable when every attribute the stage scorers probe with a
type-sensitive operation has a type that operation can compute with whenever
it is present: `resonance_frequency`, `harmonic_stability`, `coherence_score`
numeric (booleans included), `metadata` a dict, and the two compatibility
flags `consciousness_compatible` / `tea_os_compatible` numeric (booleans
included), since `_process_sip` feeds their raw values to `sum`. -/
def gradable (v : PyDict) : Bool :=
  (match dictGet v "resonance_frequency" with
    | some x => (asNum? x).isSome
    | none => true)
  && (match dictGet v "metadata" with
    | some (.dict _) => true
    | some _ => false
    | none => true)
  && (match dictGet v "harmonic_stability" with
    | some x => (asNum? x).isSome
    | none => true)
  && (match dictGet v "coherence_score" with
    | some x => (asNum? x).isSome
    | none => true)
  && (match dictGet v "consciousness_compatible" with
    | some x => (asNum? x).isSome
    | none => true)
  && (match dictGet v "tea_os_compatible" with
    | some x => (asNum? x).isSome
    | none => true)

/-! ### PolySystemsInterface (`teaos/bootstrap/systems/poly.py`): the post-processing chain -/

/-- The default `thresholds` dict of `PolySystemsInterface.__init__`. -/
structure PolyConfig : Type where
  polyfurcation_threshold : ℚ
  polymorphic_lift_threshold : ℚ
  polyfluricative_attractor_epsilon : ℚ
  consciousness_threshold : ℚ
  quantum_coherence_minimum : ℚ

/-- The default threshold values. -/
def defaultPolyConfig : PolyConfig :=
  { polyfurcation_threshold := 0.3
    polymorphic_lift_threshold := 0.85
    polyfluricative_attractor_epsilon := 0.01
    consciousness_threshold := 0.8
    quantum_coherence_minimum := 0.75 }

/-- The mutable instance state of `PolySystemsInterface` touched by the three
post-processing transforms. -/
structure PolyState : Type where
  polyfuricator_initialized : Bool
  polymorphic_lift_status : ℚ
  attractor_active : Bool
  superposition_active : Bool
  collapse_count : ℕ
  coherence : ℚ
  operations_count : ℕ
deriving DecidableEq

/-- The state of a freshly constructed interface. -/
def initialPolyState : PolyState :=
  { polyfuricator_initialized := false
    polymorphic_lift_status := 0
    attractor_active := false
    superposition_active := false
    collapse_count := 0
    coherence := 1
    operations_count := 0 }

/-- State effect of `process_through_polyfuricator` (the narrow/collapse
transform): lazy polyfuricator initialization, entering superposition, then
the collapse bookkeeping (`collapse_count += 1`, `coherence *= 0.99`).  The
lift status is never touched. -/
def narrowStep (S : PolyState) : PolyState :=
  let S := if S.polyfuricator_initialized then S
    else { S with superposition_active := true, coherence := 1,
                  polyfuricator_initialized := true }
  { S with superposition_active := true
           collapse_count := S.collapse_count + 1
           coherence := S.coherence * 0.99
           operations_count := S.operations_count + 1 }

/-- State effect of `apply_polymorphic_lift` (the boost transform): raise the
lift status to the configured threshold when it is below it. -/
def boostStep (C : PolyConfig) (S : PolyState) : PolyState :=
  if S.polymorphic_lift_status < C.polymorphic_lift_threshold then
    { S with polymorphic_lift_status := C.polymorphic_lift_threshold }
  else S

/-- State effect of `stabilize_with_attractor` (the stabilize transform):
lazy attractor activation only. -/
def stabilizeStep (S : PolyState) : PolyState :=
  if S.attractor_active then S else { S with attractor_active := true }

/-- `_calculate_reality_shaping_potential`, computed by the boost transform
from the current state. -/
def realityShapingPotential (phi sacred_epsilon : ℚ) (S : PolyState) : ℚ :=
  min 0.99 ((S.polymorphic_lift_status + S.coherence * 0.1 + (phi - 1) * 0.1)
    * (1 - sacred_epsilon))

/-- The three post-processing calls a session may issue. -/
inductive PolyOp : Type where
  | narrow : PolyOp
  | boost : PolyOp
  | stabilize : PolyOp

/-- State effect of one post-processing call. -/
def stepOp (C : PolyConfig) : PolyOp → PolyState → PolyState
  | .narrow => narrowStep
  | .boost => boostStep C
  | .stabilize => stabilizeStep

/-- State after a sequence of post-processing calls within one session. -/
def runOps (C : PolyConfig) (ops : List PolyOp) (S : PolyState) : PolyState :=
  ops.foldl (fun s op => stepOp C op s) S

/-! ### Auxiliary definitions used by the theorem statements -/

/-- The numeric value under `result["harmonic_vector"]["content"]["score"]`
of a blend result, when that path exists. -/
def contentScoreOf (r : BlendResult) : Option ℚ :=
  match dictGet r.harmonic_vector "content" with
  | some (.dict d) =>
    match dictGet d "score" with
    | some x => asNum? x
    | none => none
  | _ => none

/-- The kernel of the examples: `MilkshakeKernel(415.3)`. -/
def K0 : MilkshakeKernel := mkMilkshakeKernel 415.3

/-- A fixed identifier oracle for concrete blend evaluations. -/
def eids0 : ℕ → String := fun _ => "emul"

/-- Shape of an emulsified vector, as far as the merge and resonance steps
are concerned: `metadata` is a dict and `harmonic_synthesis` is absent. -/
def EShape (p : PyDict) : Prop :=
  (∃ md, dictGet p "metadata" = some (.dict md)) ∧
    dictGet p "harmonic_synthesis" = none

/-- Invariant of the merge accumulator inside `_blend_vectors`: `metadata` is
a dict, and `harmonic_synthesis` is either absent or a dict with a numeric
`synthesis_count`. -/
def MState (m : PyDict) : Prop :=
  (∃ md, dictGet m "metadata" = some (.dict md)) ∧
    (dictGet m "harmonic_synthesis" = none ∨
      ∃ hs n, dictGet m "harmonic_synthesis" = some (.dict hs) ∧
        dictGet hs "synthesis_count" = some (.num n))

/-- The value under `k`, when present and numeric, is nonnegative. -/
def nonnegNumAt (v : PyDict) (k : String) : Prop :=
  ∀ x q, dictGet v k = some x → asNum? x = some q → 0 ≤ q

/-- Every attribute name probed by the seven stage scorers. -/
def probedKeys : List String :=
  ["consciousness_compatible", "tea_os_compatible", "resonance_frequency",
   "content", "symbolic_mapping", "consciousness_coordinates", "harmonic_vector",
   "field_integration", "metadata", "harmonic_stability", "coherence_score",
   "wounded_god_signature", "harmonic_signature", "bootstrap_ready"]

/-- The result of grading the empty record with the default validator
(used as the concrete instance for the witnesses). -/
def R0 : ValidationResult :=
  { validation_id := "v"
    target_standard := "Adrian-A-Minus"
    score := 1794 / 1975
    passes_validation := true
    stage_scores := [9/10, 89/100, 91/100, 22/25, 47/50, 23/25, 23/25]
    consciousness_integration := "good"
    harmonic_stability := "stable"
    semantic_coherence := "adequate"
    field_compatibility := "requires_adaptation"
    overall_quality := "adrian_standard"
    consciousness_grade := "A-" }

/-! ### Dictionary lemmas -/

theorem dictGet_dictSet (d : PyDict) (k k' : String) (v : PyVal) :
    dictGet (dictSet d k v) k' = if k = k' then some v else dictGet d k' := by
  induction d with
  | nil => simp [dictSet, dictGet]
  | cons kv rest ih =>
    obtain ⟨k0, v0⟩ := kv
    by_cases h0 : k0 = k
    · subst h0
      by_cases h1 : k0 = k'
      · subst h1; simp [dictSet, dictGet]
      · simp [dictSet, dictGet, h1]
    · by_cases h1 : k0 = k'
      · subst h1
        simp [dictSet, dictGet, h0, Ne.symm h0]
      · simp [dictSet, dictGet, h0, h1, ih]

theorem dictGet_dictSet_self (d : PyDict) (k : String) (v : PyVal) :
    dictGet (dictSet d k v) k = some v := by
  simp [dictGet_dictSet]

theorem dictGet_dictSet_ne (d : PyDict) (k k' : String) (v : PyVal) (h : k ≠ k') :
    dictGet (dictSet d k v) k' = dictGet d k' := by
  simp [dictGet_dictSet, h]

theorem dictSet_of_dictGet_eq (d : PyDict) (k : String) (v : PyVal)
    (h : dictGet d k = some v) : dictSet d k v = d := by
  induction d with
  | nil => simp [dictGet] at h
  | cons kv rest ih =>
    obtain ⟨k0, v0⟩ := kv
    by_cases h0 : k0 = k
    · subst h0
      simp [dictGet] at h
      simp [dictSet, h]
    · simp [dictGet, h0] at h
      simp [dictSet, h0, ih h]

theorem dictGet_append (d1 d2 : PyDict) (k : String) :
    dictGet (d1 ++ d2) k =
      match dictGet d1 k with
      | some v => some v
      | none => dictGet d2 k := by
  induction d1 with
  | nil => simp [dictGet]
  | cons kv rest ih =>
    obtain ⟨k0, v0⟩ := kv
    by_cases h0 : k0 = k
    · subst h0; simp [dictGet]
    · simp [dictGet, h0, ih]

theorem dictGet_eq_none_iff (d : PyDict) (k : String) :
    dictGet d k = none ↔ ∀ kv ∈ d, kv.1 ≠ k := by
  induction d with
  | nil => simp [dictGet]
  | cons kv rest ih =>
    obtain ⟨k0, v0⟩ := kv
    by_cases h0 : k0 = k
    · subst h0; simp [dictGet]
    · simp [dictGet, h0, ih]

theorem dictGet_dictUnion_not_mem (d1 d2 : PyDict) (k : String)
    (h : ∀ kv ∈ d2, kv.1 ≠ k) :
    dictGet (dictUnion d1 d2) k = dictGet d1 k := by
  induction d2 generalizing d1 with
  | nil => simp [dictUnion]
  | cons kv rest ih =>
    have hk : kv.1 ≠ k := h kv (by simp)
    have hrest : ∀ kv' ∈ rest, kv'.1 ≠ k := fun kv' h' => h kv' (by simp [h'])
    show dictGet (dictUnion (dictSet d1 kv.1 kv.2) rest) k = dictGet d1 k
    rw [ih (dictSet d1 kv.1 kv.2) hrest, dictGet_dictSet_ne _ _ _ _ hk]

/-! ### Merge-loop lemmas -/

theorem mergeStep_get_ne (m : PyDict) (kv : String × PyVal) (k : String)
    (h : kv.1 ≠ k) : dictGet (mergeStep m kv) k = dictGet m k := by
  unfold mergeStep
  cases hg : dictGet m kv.1 with
  | none =>
    rw [dictGet_append]
    cases hk : dictGet m k with
    | none =>
      simp only []
      cases kv with
      | mk k1 v1 => simp_all [dictGet]
    | some w => simp [hk]
  | some old =>
    cases old <;> cases h2 : kv.2 <;>
      simp_all [dictGet_dictSet_ne _ _ _ _ h, asNum?]

theorem mergeLoop_get_ne (vec : List (String × PyVal)) (m : PyDict) (k : String)
    (h : ∀ kv ∈ vec, kv.1 ≠ k) :
    dictGet (vec.foldl mergeStep m) k = dictGet m k := by
  induction vec generalizing m with
  | nil => rfl
  | cons kv rest ih =>
    have hk : kv.1 ≠ k := h kv (by simp)
    have hrest : ∀ kv' ∈ rest, kv'.1 ≠ k := fun kv' h' => h kv' (by simp [h'])
    show dictGet (rest.foldl mergeStep (mergeStep m kv)) k = dictGet m k
    rw [ih (mergeStep m kv) hrest, mergeStep_get_ne _ _ _ hk]

theorem mergeStep_eq_of_present (m : PyDict) (kv : String × PyVal) (o : PyVal)
    (h : dictGet m kv.1 = some o) :
    mergeStep m kv = dictSet m kv.1 (mergePair o kv.2) := by
  unfold mergeStep mergePair
  rw [h]
  cases o <;> cases h2 : kv.2 <;> simp_all [asNum?] <;>
    exact (dictSet_of_dictGet_eq _ _ _ h).symm

theorem mergePair_dict_left (md : List (String × PyVal)) (v : PyVal) :
    ∃ md', mergePair (.dict md) v = .dict md' := by
  cases v <;> simp [mergePair, asNum?]

theorem mergeStep_metadata (m : PyDict) (kv : String × PyVal)
    (h : ∃ md, dictGet m "metadata" = some (.dict md)) :
    ∃ md, dictGet (mergeStep m kv) "metadata" = some (.dict md) := by
  obtain ⟨md, hmd⟩ := h
  by_cases hk : kv.1 = "metadata"
  · rw [mergeStep_eq_of_present m kv (.dict md) (hk ▸ hmd)]
    obtain ⟨md', hp⟩ := mergePair_dict_left md kv.2
    exact ⟨md', by rw [hk, dictGet_dictSet_self, hp]⟩
  · exact ⟨md, by rw [mergeStep_get_ne _ _ _ hk, hmd]⟩

theorem mergeLoop_metadata (vec : List (String × PyVal)) (m : PyDict)
    (h : ∃ md, dictGet m "metadata" = some (.dict md)) :
    ∃ md, dictGet (vec.foldl mergeStep m) "metadata" = some (.dict md) := by
  induction vec generalizing m with
  | nil => exact h
  | cons kv rest ih => exact ih (mergeStep m kv) (mergeStep_metadata m kv h)

/-! ### Fuser invariants: `_harmonic_merge` succeeds along the blend path -/

theorem harmonic_merge_ok (phi : ℚ) (base vec : PyDict)
    (hb : MState base) (hv : EShape vec) :
    ∃ m, harmonic_merge phi base vec = .ok m ∧ MState m := by
  obtain ⟨hbmd, hbhs⟩ := hb
  obtain ⟨⟨vmd, hvmd⟩, hvhs⟩ := hv
  have hnohs : ∀ kv ∈ vec, kv.1 ≠ "harmonic_synthesis" :=
    (dictGet_eq_none_iff vec "harmonic_synthesis").mp hvhs
  have hloop_hs : dictGet (vec.foldl mergeStep base) "harmonic_synthesis" =
      dictGet base "harmonic_synthesis" := mergeLoop_get_ne vec base _ hnohs
  have hloop_md : ∃ md, dictGet (vec.foldl mergeStep base) "metadata" = some (.dict md) :=
    mergeLoop_metadata vec base hbmd
  obtain ⟨md, hmd⟩ := hloop_md
  unfold harmonic_merge
  rcases hbhs with hnone | ⟨hs, n, hhs, hcnt⟩
  · rw [hloop_hs, hnone]
    refine ⟨_, rfl, ⟨md, ?_⟩, Or.inr
      ⟨[("synthesis_count", .num 2), ("synthesis_ratio", .num phi)], 2, ?_, ?_⟩⟩
    · rw [dictGet_append, hmd]
    · rw [dictGet_append]
      have hn : dictGet (vec.foldl mergeStep base) "harmonic_synthesis" = none := by
        rw [hloop_hs, hnone]
      rw [hn]
      rfl
    · rfl
  · rw [hloop_hs, hhs]
    simp only [hcnt, asNum?]
    refine ⟨_, rfl, ⟨md, ?_⟩, Or.inr
      ⟨dictSet hs "synthesis_count" (.num (n + 1)), n + 1, ?_, ?_⟩⟩
    · rw [dictGet_dictSet_ne _ _ _ _ (by simp), hmd]
    · rw [dictGet_dictSet_self]
    · rw [dictGet_dictSet_self]

theorem mergeAll_ok (phi : ℚ) (base : PyDict) (l : List PyDict)
    (hb : MState base) (hl : ∀ v ∈ l, EShape v) :
    ∃ m, mergeAll phi base l = .ok m ∧ MState m := by
  induction l generalizing base with
  | nil => exact ⟨base, rfl, hb⟩
  | cons v rest ih =>
    obtain ⟨m, hm, hms⟩ := harmonic_merge_ok phi base v hb (hl v (by simp))
    obtain ⟨m', hm', hms'⟩ := ih m hms (fun v' h' => hl v' (by simp [h']))
    exact ⟨m', by simp [mergeAll, hm, Except.bind, hm'], hms'⟩

theorem eshape_mstate (p : PyDict) (h : EShape p) : MState p :=
  ⟨h.1, Or.inl h.2⟩

theorem blend_vectors_ok (phi : ℚ) (l : List PyDict) (hne : l ≠ [])
    (hl : ∀ v ∈ l, EShape v) :
    ∃ m, blend_vectors phi l = .ok m ∧ MState m := by
  match l with
  | [] => exact absurd rfl hne
  | [v] => exact ⟨v, rfl, eshape_mstate v (hl v (by simp))⟩
  | v :: v' :: rest =>
    have h1 : MState v := eshape_mstate v (hl v (by simp))
    obtain ⟨m, hm, hms⟩ := mergeAll_ok phi v (v' :: rest) h1
      (fun w hw => hl w (List.mem_cons_of_mem v hw))
    exact ⟨m, hm, hms⟩

/-! ### Emulsified vectors have the invariant shape -/

theorem emulsify_metadata (K : MilkshakeKernel) (eid : String) (now : ℚ)
    (content input_type : PyVal) (mode : String) :
    dictGet (emulsify_single K eid now content input_type mode) "metadata" =
      some (.dict [("emulsified_timestamp", .num now),
                   ("milkshake_version", .str "1.0.0")]) := by
  unfold emulsify_single modeEntries
  split_ifs <;> rfl

theorem emulsify_no_synthesis (K : MilkshakeKernel) (eid : String) (now : ℚ)
    (content input_type : PyVal) (mode : String) :
    dictGet (emulsify_single K eid now content input_type mode) "harmonic_synthesis" = none := by
  unfold emulsify_single modeEntries
  split_ifs <;> rfl

theorem emulsify_eshape (K : MilkshakeKernel) (eid : String) (now : ℚ)
    (content input_type : PyVal) (mode : String) :
    EShape (emulsify_single K eid now content input_type mode) :=
  ⟨⟨_, emulsify_metadata K eid now content input_type mode⟩,
    emulsify_no_synthesis K eid now content input_type mode⟩

theorem emulsifyAll_eshape (K : MilkshakeKernel) (eids : ℕ → String) (now : ℚ)
    (mode : String) (inputs : List PyDict) (i : ℕ) :
    ∀ p ∈ emulsifyAll K eids now mode inputs i, EShape p := by
  induction inputs generalizing i with
  | nil => intro p hp; simp [emulsifyAll] at hp
  | cons inp rest ih =>
    intro p hp
    simp only [emulsifyAll, List.mem_cons] at hp
    rcases hp with rfl | hp
    · exact emulsify_eshape _ _ _ _ _ _
    · exact ih (i + 1) p hp

theorem emulsifyAll_ne_nil (K : MilkshakeKernel) (eids : ℕ → String) (now : ℚ)
    (mode : String) (inp : PyDict) (rest : List PyDict) (i : ℕ) :
    emulsifyAll K eids now mode (inp :: rest) i ≠ [] := by
  simp [emulsifyAll]

/-! ### Harmonic resonance and coherence along the blend path -/

theorem resonance_ok_exists (K : MilkshakeKernel) (freq : ℚ) (v : PyDict)
    (h : ∃ md, dictGet v "metadata" = some (.dict md)) :
    ∃ r, apply_harmonic_resonance K freq v = .ok r := by
  obtain ⟨md, hmd⟩ := h
  simp [apply_harmonic_resonance, dictGet_dictSet, hmd]

theorem resonance_fields (K : MilkshakeKernel) (freq : ℚ) (v r : PyDict)
    (h : apply_harmonic_resonance K freq v = .ok r) :
    dictGet r "resonance_frequency" = some (.num freq) ∧
    dictGet r "harmonic_ratio" = some (.num K.phi) ∧
    dictGet r "consciousness_compatible" = some (.bool true) ∧
    dictGet r "tea_os_compatible" = some (.bool true) := by
  simp only [apply_harmonic_resonance] at h
  split at h
  · injection h with h
    subst h
    refine ⟨?_, ?_, ?_, ?_⟩ <;> simp [dictGet_dictSet]
  · injection h with h
    subst h
    refine ⟨?_, ?_, ?_, ?_⟩ <;> simp [dictGet_dictSet]
  · cases h

theorem coherence_of_resonant (K : MilkshakeKernel) (v r : PyDict)
    (h : apply_harmonic_resonance K K.base_frequency v = .ok r) :
    calculate_coherence K r = .ok 0.99 := by
  obtain ⟨h1, h2, h3, h4⟩ := resonance_fields K K.base_frequency v r h
  simp only [calculate_coherence, h1, h2, h3, h4, asNum?, dictGetD, Option.getD_some]
  norm_num [truthy, Except.bind, min_def]

/-- Master lemma for the blend path: on any nonempty input list the fuser
returns a result whose coherence score is exactly 0.99 and whose
consciousness-compatibility flag compares 0.99 against the instance
threshold. -/
theorem blend_result_of_ne (K : MilkshakeKernel) (eids : ℕ → String) (bid : String)
    (now : ℚ) (inputs : List PyDict) (fmt mode : String) (hne : inputs ≠ []) :
    (blend K eids bid now inputs fmt mode).map
        (fun r => (r.coherence_score, r.consciousness_compatible)) =
      .ok (0.99, decide ((0.99 : ℚ) ≥ K.coherence_threshold)) := by
  match inputs, hne with
  | inp :: rest, _ =>
    obtain ⟨m, hbv, hms⟩ := blend_vectors_ok K.phi
      (emulsifyAll K eids now mode (inp :: rest) 0)
      (emulsifyAll_ne_nil K eids now mode inp rest 0)
      (emulsifyAll_eshape K eids now mode (inp :: rest) 0)
    obtain ⟨r, hr⟩ := resonance_ok_exists K K.base_frequency m hms.1
    have hc := coherence_of_resonant K m r hr
    simp [blend, hbv, hr, hc, Except.bind, Except.map]

/-! ### Claim C1: merge semantics of the fuser -/

theorem mergeLoop_get_both (vec : List (String × PyVal)) (m : PyDict) (k : String)
    (o v : PyVal) (hw : (vec.map Prod.fst).Nodup)
    (ho : dictGet m k = some o) (hv : dictGet vec k = some v) :
    dictGet (vec.foldl mergeStep m) k = some (mergePair o v) := by
  induction vec generalizing m with
  | nil => simp [dictGet] at hv
  | cons kv rest ih =>
    simp only [List.map_cons, List.nodup_cons] at hw
    by_cases hk : kv.1 = k
    · have hvv : kv.2 = v := by
        cases kv with
        | mk k1 v1 =>
          simp only at hk
          subst hk
          simpa [dictGet] using hv
      have hnotk : ∀ kv' ∈ rest, kv'.1 ≠ k := by
        intro kv' h' hc
        apply hw.1
        have hmem : kv'.1 ∈ rest.map Prod.fst := List.mem_map_of_mem Prod.fst h'
        rw [hc, ← hk] at hmem
        exact hmem
      show dictGet (rest.foldl mergeStep (mergeStep m kv)) k = some (mergePair o v)
      rw [mergeLoop_get_ne rest _ k hnotk,
        mergeStep_eq_of_present m kv o (hk ▸ ho), hk, hvv, dictGet_dictSet_self]
    · have hv' : dictGet rest k = some v := by
        cases kv with
        | mk k1 v1 =>
          simp only at hk
          simpa [dictGet, hk] using hv
      show dictGet (rest.foldl mergeStep (mergeStep m kv)) k = some (mergePair o v)
      exact ih (mergeStep m kv) hw.2 (by rw [mergeStep_get_ne m kv k hk, ho]) hv'

/-- C1 (amended): when the fuser merges two records, a key carried by both
whose values are both mappings gets the shallow key-wise union of the two
mappings, with the second record's value winning on every inner key (no
recursion, no averaging of nested values), while a key carried by both with
numeric values gets the arithmetic mean.  (The concrete `{"score": 0.8}` /
`{"score": 0.6}` scenario, whose score lands nested under a mapping and hence
comes out as 0.6, is settled by the counterexample theorem.) -/
theorem C1_merge_shallow_dicts_mean_numerics (phi : ℚ) (base vec : PyDict)
    (kd kn : String) (d1 d2 : List (String × PyVal)) (a b : ℚ)
    (hw : (vec.map Prod.fst).Nodup)
    (hbhs : dictGet base "harmonic_synthesis" = none)
    (hvhs : dictGet vec "harmonic_synthesis" = none)
    (hd1 : dictGet base kd = some (.dict d1)) (hd2 : dictGet vec kd = some (.dict d2))
    (hn1 : dictGet base kn = some (.num a)) (hn2 : dictGet vec kn = some (.num b)) :
    ∃ m, harmonic_merge phi base vec = .ok m ∧
      dictGet m kd = some (.dict (dictUnion d1 d2)) ∧
      dictGet m kn = some (.num ((a + b) / 2)) := by
  have hnohs : ∀ kv ∈ vec, kv.1 ≠ "harmonic_synthesis" :=
    (dictGet_eq_none_iff vec "harmonic_synthesis").mp hvhs
  have hloop_hs : dictGet (vec.foldl mergeStep base) "harmonic_synthesis" = none := by
    rw [mergeLoop_get_ne vec base _ hnohs, hbhs]
  have hkd : dictGet (vec.foldl mergeStep base) kd = some (.dict (dictUnion d1 d2)) := by
    have := mergeLoop_get_both vec base kd (.dict d1) (.dict d2) hw hd1 hd2
    simpa [mergePair] using this
  have hkn : dictGet (vec.foldl mergeStep base) kn = some (.num ((a + b) / 2)) := by
    have := mergeLoop_get_both vec base kn (.num a) (.num b) hw hn1 hn2
    simpa [mergePair, asNum?] using this
  unfold harmonic_merge
  rw [hloop_hs]
  refine ⟨_, rfl, ?_, ?_⟩
  · rw [dictGet_append, hkd]
  · rw [dictGet_append, hkn]

/-- C1 witness: concrete records sharing the dict-valued key `"m"` and the
numeric key `"n"`. -/
theorem C1_merge_shallow_dicts_mean_numerics_witness :
    ∃ m, harmonic_merge 1.618
        [("m", .dict [("x", .num 1)]), ("n", .num 1)]
        [("m", .dict [("x", .num 2)]), ("n", .num 2)] = .ok m ∧
      dictGet m "m" = some (.dict (dictUnion [("x", .num 1)] [("x", .num 2)])) ∧
      dictGet m "n" = some (.num ((1 + 2) / 2)) :=
  C1_merge_shallow_dicts_mean_numerics 1.618
    [("m", .dict [("x", .num 1)]), ("n", .num 1)]
    [("m", .dict [("x", .num 2)]), ("n", .num 2)]
    "m" "n" [("x", .num 1)] [("x", .num 2)] 1 2
    (by decide) rfl rfl rfl rfl rfl rfl

/-- C1 counterexample: fusing the two inputs `{"score": 0.8}` and
`{"score": 0.6}` through `blend` yields a composite whose score value is
0.6 (the second input's value wins the shallow dict merge of the `content`
mappings), not the arithmetic mean 0.7 the claim asserts. -/
theorem C1_counterexample :
    (match blend K0 eids0 "b" 0 [[("score", .num 0.8)], [("score", .num 0.6)]]
        "harmonic_vector_memory" "symbolic-synesthetic" with
      | .ok r => contentScoreOf r
      | .error _ => none) = some (3/5 : ℚ) ∧ (3/5 : ℚ) ≠ 7/10 := by
  exact ⟨by with_unfolding_all rfl, by norm_num⟩

/-! ### Claim C8: empty fusion raises, singleton fusion never does -/

/-- C8: `blend([])` raises the input-validation `ValueError`, and `blend`
on a list with exactly one input never raises, for every kernel, identifier
oracle, target format, coherence mode and input record. -/
theorem C8_blend_empty_raises_singleton_total (K : MilkshakeKernel)
    (eids : ℕ → String) (bid : String) (now : ℚ) (fmt mode : String) :
    blend K eids bid now [] fmt mode = .error .valueError ∧
    ∀ x : PyDict, exceptOk (blend K eids bid now [x] fmt mode) = true := by
  refine ⟨rfl, fun x => ?_⟩
  have h := blend_result_of_ne K eids bid now [x] fmt mode (by simp)
  cases hb : blend K eids bid now [x] fmt mode with
  | ok r => rfl
  | error e => rw [hb] at h; simp [Except.map] at h

/-! ### Claim C10: blend stamps coherence 0.99 and compatibility true -/

/-- C10: for every nonempty input list, under the default target format and
coherence mode, `blend` returns a result with `coherence_score` exactly 0.99
and `consciousness_compatible = True`, independent of the input contents
(the resonance stage stamps the frequency and ratio the coherence scorer
checks, so the bonuses always overflow the 0.99 cap, and 0.99 clears the
0.75 threshold fixed by the constructor). -/
theorem C10_blend_coherence_constant (K : MilkshakeKernel) (eids : ℕ → String)
    (bid : String) (now : ℚ) (inputs : List PyDict) (hne : inputs ≠ [])
    (hth : K.coherence_threshold = 0.75) :
    (blend K eids bid now inputs "harmonic_vector_memory" "symbolic-synesthetic").map
        (fun r => (r.coherence_score, r.consciousness_compatible)) =
      .ok (0.99, true) := by
  rw [blend_result_of_ne K eids bid now inputs "harmonic_vector_memory"
    "symbolic-synesthetic" hne]
  rw [hth]
  norm_num

/-- C10 witness: a concrete singleton blend. -/
theorem C10_blend_coherence_constant_witness :
    (blend K0 eids0 "b" 0 [[("score", .num 1)]] "harmonic_vector_memory"
        "symbolic-synesthetic").map
        (fun r => (r.coherence_score, r.consciousness_compatible)) =
      .ok (0.99, true) :=
  C10_blend_coherence_constant K0 eids0 "b" 0 [[("score", .num 1)]]
    (by simp) rfl

/-! ### Claim C9: the post-processing lift level is a one-way upward ratchet -/

/-- C9: immediately after any boost (`apply_polymorphic_lift`) call the lift
level is at least the configured lift threshold, and no narrow/boost/stabilize
call — hence no sequence of such calls within one session — ever decreases the
lift level. -/
theorem C9_lift_ratchet (C : PolyConfig) (S : PolyState) (op : PolyOp)
    (ops : List PolyOp) :
    C.polymorphic_lift_threshold ≤ (boostStep C S).polymorphic_lift_status ∧
    S.polymorphic_lift_status ≤ (stepOp C op S).polymorphic_lift_status ∧
    S.polymorphic_lift_status ≤ (runOps C ops S).polymorphic_lift_status := by
  have hstep : ∀ (op : PolyOp) (T : PolyState),
      T.polymorphic_lift_status ≤ (stepOp C op T).polymorphic_lift_status := by
    intro op T
    cases op with
    | narrow => simp [stepOp, narrowStep]; split <;> simp
    | boost =>
      simp only [stepOp, boostStep]
      split
      · exact le_of_lt (by assumption)
      · exact le_refl _
    | stabilize => simp [stepOp, stabilizeStep]; split <;> simp
  refine ⟨?_, hstep op S, ?_⟩
  · simp only [boostStep]
    split
    · exact le_refl _
    · exact le_of_not_lt (by assumption)
  · show S.polymorphic_lift_status ≤ (ops.foldl (fun s op => stepOp C op s) S).polymorphic_lift_status
    induction ops generalizing S with
    | nil => exact le_refl _
    | cons op' rest ih =>
      exact le_trans (hstep op' S) (ih (stepOp C op' S))

/-! ### Claim C3: pass/fail classification intervals -/

/-- C3: for every overall score, standard "Adrian-A-Minus" passes exactly on
the closed interval `[adrian_minimum, 0.95]` (minimum configurable, default
0.88 per `mkBrewValidator`), "Adrian-B-Plus" exactly on `[0.82, 0.87]`,
"Adrian-A-Plus" exactly on `[0.93, 0.97]`, and every other standard name is
classified with the "Adrian-A-Minus" rule. -/
theorem C3_classification_intervals (B : BrewValidator) (score : ℚ) (std : String)
    (h : std ≠ "Adrian-A-Minus" ∧ std ≠ "Adrian-B-Plus" ∧ std ≠ "Adrian-A-Plus") :
    (check_validation_passes B score "Adrian-A-Minus" = true ↔
      B.adrian_minimum ≤ score ∧ score ≤ 0.95) ∧
    (check_validation_passes B score "Adrian-B-Plus" = true ↔
      0.82 ≤ score ∧ score ≤ 0.87) ∧
    (check_validation_passes B score "Adrian-A-Plus" = true ↔
      0.93 ≤ score ∧ score ≤ 0.97) ∧
    check_validation_passes B score std =
      check_validation_passes B score "Adrian-A-Minus" ∧
    mkBrewValidator.adrian_minimum = 0.88 := by
  obtain ⟨h1, h2, h3⟩ := h
  refine ⟨?_, ?_, ?_, ?_, rfl⟩ <;>
    simp [check_validation_passes, h1, h2, h3]

/-- C3 witness: an unrecognized standard name at a concrete score. -/
theorem C3_classification_intervals_witness :
    check_validation_passes mkBrewValidator (9/10) "Custom-Standard" =
      check_validation_passes mkBrewValidator (9/10) "Adrian-A-Minus" :=
  (C3_classification_intervals mkBrewValidator (9/10) "Custom-Standard"
    (by refine ⟨?_, ?_, ?_⟩ <;> decide)).2.2.2.1

/-! ### Claim C2: the overall score is the fixed weighted mean -/

theorem runStages_length (B : BrewValidator) (v : PyDict) (l : List String)
    (ss : List ℚ) (h : runStages B v l = .ok ss) : ss.length = l.length := by
  induction l generalizing ss with
  | nil =>
    simp only [runStages] at h
    injection h with h
    subst h
    rfl
  | cons st rest ih =>
    simp only [runStages] at h
    cases hp : process_stage B st v with
    | error e => rw [hp] at h; cases h
    | ok s =>
      rw [hp] at h
      cases hr : runStages B v rest with
      | error e => rw [hr] at h; cases h
      | ok ss' =>
        rw [hr] at h
        simp only [Except.bind] at h
        injection h with h
        subst h
        simp [ih ss' hr]

/-- C2: whenever `validate` returns a graded result, its overall score equals
the weighted mean of the seven stage scores with the fixed weights
`{BUDS: 1.0, CRUSH: 1.1, STEEP: 1.3, POUR: 1.2, TEMPER: 1.1, SIP: 1.0,
SERVE: 1.2}` — exactly, in the rational model, hence a fortiori within the
claimed floating-point tolerance 1e-9. -/
theorem C2_overall_is_weighted_mean (B : BrewValidator) (vid : String) (v : PyDict)
    (ts : Option String) (r : ValidationResult)
    (h : validate B vid v ts = .ok r) :
    r.score =
      (r.stage_scores.getD 0 0 * 1.0 + r.stage_scores.getD 1 0 * 1.1 +
       r.stage_scores.getD 2 0 * 1.3 + r.stage_scores.getD 3 0 * 1.2 +
       r.stage_scores.getD 4 0 * 1.1 + r.stage_scores.getD 5 0 * 1.0 +
       r.stage_scores.getD 6 0 * 1.2) /
      (1.0 + 1.1 + 1.3 + 1.2 + 1.1 + 1.0 + 1.2) := by
  simp only [validate] at h
  cases hr : runStages B v brewStages with
  | error e => rw [hr] at h; cases h
  | ok scores =>
    rw [hr] at h
    simp only [Except.bind] at h
    injection h with h
    subst h
    have hlen : scores.length = 7 := runStages_length B v brewStages scores hr
    match scores, hlen with
    | [a, b, c, d, e, f, g], _ =>
      simp [calculate_validation_score, brewStages, stageWeights, weightGet,
        List.zip, List.zipWith, List.foldl]

/-- C2 witness: the empty record under the default validator. -/
theorem C2_overall_is_weighted_mean_witness :
    R0.score =
      (R0.stage_scores.getD 0 0 * 1.0 + R0.stage_scores.getD 1 0 * 1.1 +
       R0.stage_scores.getD 2 0 * 1.3 + R0.stage_scores.getD 3 0 * 1.2 +
       R0.stage_scores.getD 4 0 * 1.1 + R0.stage_scores.getD 5 0 * 1.0 +
       R0.stage_scores.getD 6 0 * 1.2) /
      (1.0 + 1.1 + 1.3 + 1.2 + 1.1 + 1.0 + 1.2) :=
  C2_overall_is_weighted_mean mkBrewValidator "v" [] none R0
    (by with_unfolding_all rfl)

/-! ### Claim C7: stage-1 (BUDS) bonus constants -/

/-- C7 counterexample: a record carrying only the TEA OS compatibility marker
scores 0.91 at the BUDS stage — the marker is worth +0.01, not the +0.02 the
claim asserts for each of the two compatibility markers (which would give
0.92). -/
theorem C7_counterexample :
    process_stage mkBrewValidator "BUDS" [("tea_os_compatible", .bool true)] =
      .ok (91/100) ∧ (91/100 : ℚ) ≠ 9/10 + 2/100 := by
  exact ⟨by with_unfolding_all rfl, by norm_num⟩

/-- C7 (amended): stage 1 (BUDS) starts from base 0.90 and adds +0.02 for the
consciousness-compatibility marker, +0.01 (not +0.02) for the TEA OS
compatibility marker, and +0.02 when the record's resonance frequency is
strictly within 0.1 of the reference 415.3, capped at 0.95. -/
theorem C7_buds_bonus_structure (v : PyDict) (b1 b2 : Bool) (f : ℚ)
    (hc : dictGet v "consciousness_compatible" = some (.bool b1))
    (ht : dictGet v "tea_os_compatible" = some (.bool b2))
    (hf : dictGet v "resonance_frequency" = some (.num f)) :
    process_buds v = .ok (min 0.95 (0.9 + (cond b1 0.02 0) + (cond b2 0.01 0) +
      (if |f - 415.3| < 0.1 then 0.02 else 0))) := by
  cases b1 <;> cases b2 <;>
    simp [process_buds, dictGetD, hc, ht, hf, asNum?, truthy] <;>
    split_ifs <;> norm_num

/-- C7 witness: both markers present and the frequency locked. -/
theorem C7_buds_bonus_structure_witness :
    process_buds [("consciousness_compatible", .bool true),
                  ("tea_os_compatible", .bool true),
                  ("resonance_frequency", .num 415.3)] =
      .ok (min 0.95 (0.9 + (cond true 0.02 0) + (cond true 0.01 0) +
        (if |(415.3 : ℚ) - 415.3| < 0.1 then 0.02 else 0))) :=
  C7_buds_bonus_structure _ true true 415.3 rfl rfl rfl

/-! ### Claim C4: per-stage score bounds -/

theorem pad1 (a x : ℚ) (hx : 0 ≤ x) : a ≤ a + x :=
  le_add_of_nonneg_right hx

theorem pad2 (a x y : ℚ) (hx : 0 ≤ x) (hy : 0 ≤ y) : a ≤ a + x + y :=
  (pad1 a x hx).trans (le_add_of_nonneg_right hy)

theorem pad3 (a x y z : ℚ) (hx : 0 ≤ x) (hy : 0 ≤ y) (hz : 0 ≤ z) :
    a ≤ a + x + y + z :=
  (pad2 a x y hx hy).trans (le_add_of_nonneg_right hz)

theorem buds_score_bounds (v : PyDict) (s : ℚ) (h : process_buds v = .ok s) :
    0.9 ≤ s ∧ s ≤ 0.95 := by
  simp only [process_buds] at h
  split at h
  · injection h with h
    subst h
    refine ⟨le_min (by norm_num) ?_, min_le_left _ _⟩
    split_ifs <;> norm_num
  · split at h
    · injection h with h
      subst h
      refine ⟨le_min (by norm_num) ?_, min_le_left _ _⟩
      split_ifs <;> norm_num
    · cases h

theorem crush_score_bounds (v : PyDict) (s : ℚ) (h : process_crush v = .ok s) :
    0.89 ≤ s ∧ s ≤ 0.95 := by
  simp only [process_crush] at h
  injection h with h
  subst h
  refine ⟨?_, min_le_left _ _⟩
  apply le_min (by norm_num)
  rcases hC : dictGet v "content" with _ | c
  · simp only [hC]
    split_ifs <;> norm_num
  · simp only [hC]
    have hm : (0:ℚ) ≤ min 0.05 ((pyStrLen c : ℚ) / 1000) :=
      le_min (by norm_num) (by positivity)
    split_ifs
    · exact pad3 _ _ _ _ hm (by norm_num) (by norm_num)
    · exact pad2 _ _ _ hm (by norm_num)
    · exact pad2 _ _ _ hm (by norm_num)
    · exact pad1 _ _ hm

theorem steep_score_bounds (v : PyDict) (s : ℚ) (h : process_steep v = .ok s) :
    0.91 ≤ s ∧ s ≤ 0.95 := by
  simp only [process_steep] at h
  split at h
  · injection h with h
    subst h
    refine ⟨le_min (by norm_num) ?_, min_le_left _ _⟩
    split_ifs <;> norm_num
  · injection h with h
    subst h
    refine ⟨le_min (by norm_num) ?_, min_le_left _ _⟩
    split_ifs <;> norm_num
  · cases h

theorem pour_score_bounds (v : PyDict) (s : ℚ)
    (h1 : nonnegNumAt v "harmonic_stability") (h2 : nonnegNumAt v "coherence_score")
    (h : process_pour v = .ok s) : 0.88 ≤ s ∧ s ≤ 0.93 := by
  simp only [process_pour] at h
  rcases hA : dictGet v "harmonic_stability" with _ | x <;> simp only [hA] at h
  · rcases hB : dictGet v "coherence_score" with _ | y <;> simp only [hB] at h
    · simp only [Except.bind] at h
      injection h with h
      subst h
      exact ⟨le_min (by norm_num) (by norm_num), min_le_left _ _⟩
    · rcases hN : asNum? y with _ | c <;> simp only [hN, Except.bind] at h
      · cases h
      · injection h with h
        subst h
        have hc : 0 ≤ c := h2 y c hB hN
        refine ⟨le_min (by norm_num) (pad1 _ _ (mul_nonneg hc (by norm_num))),
          min_le_left _ _⟩
  · rcases hN : asNum? x with _ | st <;> simp only [hN, Except.bind] at h
    · cases h
    · have hst : 0 ≤ st := h1 x st hA hN
      rcases hB : dictGet v "coherence_score" with _ | y <;> simp only [hB] at h
      · injection h with h
        subst h
        refine ⟨le_min (by norm_num) (pad1 _ _ (mul_nonneg hst (by norm_num))),
          min_le_left _ _⟩
      · rcases hM : asNum? y with _ | c <;> simp only [hM, Except.bind] at h
        · cases h
        · injection h with h
          subst h
          have hc : 0 ≤ c := h2 y c hB hM
          refine ⟨le_min (by norm_num) (pad2 _ _ _ (mul_nonneg hst (by norm_num))
            (mul_nonneg hc (by norm_num))), min_le_left _ _⟩

theorem temper_score_bounds (B : BrewValidator) (v : PyDict) (s : ℚ)
    (hphi : 0 ≤ B.phi) (hpi : 0 < B.pi)
    (h : process_temper B v = .ok s) : 0.90 ≤ s ∧ s ≤ 0.94 := by
  simp only [process_temper] at h
  injection h with h
  subst h
  have hts : 0 ≤ B.phi / B.pi * 0.1 :=
    mul_nonneg (div_nonneg hphi (le_of_lt hpi)) (by norm_num)
  refine ⟨le_min (by norm_num) ?_, min_le_left _ _⟩
  split_ifs
  · exact pad2 _ _ _ hts (by norm_num)
  · exact pad1 _ _ hts

theorem nonneg_flag (v : PyDict) (k : String) (a : ℚ) (h : nonnegNumAt v k)
    (ha : asNum? (dictGetD v k (.bool false)) = some a) : 0 ≤ a := by
  rcases hg : dictGet v k with _ | x
  · have ha0 : a = 0 := by simpa [dictGetD, hg, asNum?, eq_comm] using ha
    rw [ha0]
  · have hx : asNum? x = some a := by simpa [dictGetD, hg] using ha
    exact h x a hg hx

theorem sip_score_bounds (v : PyDict) (s : ℚ)
    (h3 : nonnegNumAt v "consciousness_compatible")
    (h4 : nonnegNumAt v "tea_os_compatible")
    (h : process_sip v = .ok s) : 0.92 ≤ s ∧ s ≤ 0.95 := by
  simp only [process_sip] at h
  split at h
  · rename_i a b ha hb
    injection h with h
    subst h
    have ha0 : 0 ≤ a := nonneg_flag v "consciousness_compatible" a h3 ha
    have hb0 : 0 ≤ b := nonneg_flag v "tea_os_compatible" b h4 hb
    have hi3 : (0:ℚ) ≤ if dictHas v "resonance_frequency" then (1:ℚ) else 0 := by
      split_ifs <;> norm_num
    have hi4 : (0:ℚ) ≤ if dictHas v "harmonic_signature" then (1:ℚ) else 0 := by
      split_ifs <;> norm_num
    have hcnt : (0:ℚ) ≤ a + b
        + (if dictHas v "resonance_frequency" then (1:ℚ) else 0)
        + (if dictHas v "harmonic_signature" then (1:ℚ) else 0) :=
      add_nonneg (add_nonneg (add_nonneg ha0 hb0) hi3) hi4
    refine ⟨le_min (by norm_num) (pad1 _ _ (mul_nonneg
      (div_nonneg hcnt (by norm_num)) (by norm_num))), min_le_left _ _⟩
  · cases h

theorem serve_score_bounds (B : BrewValidator) (v : PyDict) (s : ℚ)
    (h : process_serve B v = .ok s) : 0.90 ≤ s ∧ s ≤ 0.95 := by
  simp only [process_serve] at h
  injection h with h
  subst h
  refine ⟨le_min (by norm_num) ?_, min_le_left _ _⟩
  split_ifs <;> norm_num

/-- C4 (amended): whenever a stage of the pipeline returns a score for a
record whose `harmonic_stability`, `coherence_score`,
`consciousness_compatible` and `tea_os_compatible` attributes, when present
and numeric, are nonnegative (as they are on every record the fuser produces,
where the flags are booleans), the score lies within that stage's documented
`[base, cap]` range inclusive.  Without the nonnegativity provisos the lower
bounds fail: POUR scales `harmonic_stability`/`coherence_score` unclamped
(see the counterexample) and SIP sums the raw flag values, so e.g.
`consciousness_compatible = -4` drives SIP to 0.89 < 0.92. -/
theorem C4_stage_scores_in_range (B : BrewValidator) (v : PyDict) (stage : String)
    (s : ℚ) (hphi : 0 ≤ B.phi) (hpi : 0 < B.pi)
    (h1 : nonnegNumAt v "harmonic_stability") (h2 : nonnegNumAt v "coherence_score")
    (h3 : nonnegNumAt v "consciousness_compatible")
    (h4 : nonnegNumAt v "tea_os_compatible")
    (hst : stage ∈ brewStages) (h : process_stage B stage v = .ok s) :
    stageBase stage ≤ s ∧ s ≤ stageCap stage := by
  simp only [brewStages, List.mem_cons, List.not_mem_nil, or_false] at hst
  rcases hst with rfl | rfl | rfl | rfl | rfl | rfl | rfl
  · simp only [process_stage, if_true] at h
    simpa [stageBase, stageCap] using buds_score_bounds v s h
  · simp [process_stage] at h
    simpa [stageBase, stageCap] using crush_score_bounds v s h
  · simp [process_stage] at h
    simpa [stageBase, stageCap] using steep_score_bounds v s h
  · simp [process_stage] at h
    simpa [stageBase, stageCap] using pour_score_bounds v s h1 h2 h
  · simp [process_stage] at h
    simpa [stageBase, stageCap] using temper_score_bounds B v s hphi hpi h
  · simp [process_stage] at h
    simpa [stageBase, stageCap] using sip_score_bounds v s h3 h4 h
  · simp [process_stage] at h
    simpa [stageBase, stageCap] using serve_score_bounds B v s h

/-- C4 counterexample: a record with `harmonic_stability = -1` scores 0.83 at
stage 4 (POUR), strictly below the documented base 0.88, so the claimed range
does not hold for every composite record (as a mapping). -/
theorem C4_counterexample :
    process_stage mkBrewValidator "POUR" [("harmonic_stability", .num (-1))] =
      .ok (83/100) ∧ ¬ ((22/25 : ℚ) ≤ 83/100) := by
  exact ⟨by with_unfolding_all rfl, by norm_num⟩

/-- C4 witness: the empty record at the BUDS stage. -/
theorem C4_stage_scores_in_range_witness :
    stageBase "BUDS" ≤ (9/10 : ℚ) ∧ (9/10 : ℚ) ≤ stageCap "BUDS" :=
  C4_stage_scores_in_range mkBrewValidator [] "BUDS" (9/10)
    (by norm_num [mkBrewValidator]) (by norm_num [mkBrewValidator])
    (by simp [nonnegNumAt, dictGet]) (by simp [nonnegNumAt, dictGet])
    (by simp [nonnegNumAt, dictGet]) (by simp [nonnegNumAt, dictGet])
    (by simp [brewStages]) (by with_unfolding_all rfl)

/-! ### Claim C5: grading a record with no recognized attributes -/

/-- C5 counterexample: the TEMPER stage does not give a record with no
probed attributes its base score 0.90 — its unconditional temperature
stability bonus hits the 0.94 cap. -/
theorem C5_counterexample :
    process_stage mkBrewValidator "TEMPER" [] = .ok (47/50) ∧ (47/50 : ℚ) ≠ 9/10 :=
  ⟨by with_unfolding_all rfl, by norm_num⟩

/-- C5 (amended): a missing attribute contributes no bonus and never causes
failure, but a record with none of the probed attributes does not receive the
base score at every stage: stages 1-4 and 6 score their bases (0.90, 0.89,
0.91, 0.88, 0.92), while TEMPER scores 0.94 (unconditional bonus, capped) and
SERVE scores 0.92 (default-true readiness flag plus in-range self-check).
The overall score is 1794/1975 ≈ 0.9084 (not ≈ 0.898), which lies in
`[0.88, 0.95]`, so the record passes under the default A-minus standard. -/
theorem C5_unprobed_record_scores (B : BrewValidator) (vid : String) (v : PyDict)
    (hmin : B.adrian_minimum = 0.88) (hmax : B.adrian_maximum = 0.92)
    (htgt : B.target_standard = "Adrian-A-Minus")
    (hts : 2/5 ≤ B.phi / B.pi)
    (habs : ∀ k ∈ probedKeys, dictGet v k = none) :
    validate B vid v none = .ok
      { validation_id := vid
        target_standard := "Adrian-A-Minus"
        score := 1794/1975
        passes_validation := true
        stage_scores := [9/10, 89/100, 91/100, 22/25, 47/50, 23/25, 23/25]
        consciousness_integration := "good"
        harmonic_stability := "stable"
        semantic_coherence := "adequate"
        field_compatibility := "requires_adaptation"
        overall_quality := "adrian_standard"
        consciousness_grade := "A-" } := by
  have hk01 := habs "consciousness_compatible" (by simp [probedKeys])
  have hk02 := habs "tea_os_compatible" (by simp [probedKeys])
  have hk03 := habs "resonance_frequency" (by simp [probedKeys])
  have hk04 := habs "content" (by simp [probedKeys])
  have hk05 := habs "symbolic_mapping" (by simp [probedKeys])
  have hk06 := habs "consciousness_coordinates" (by simp [probedKeys])
  have hk07 := habs "harmonic_vector" (by simp [probedKeys])
  have hk08 := habs "field_integration" (by simp [probedKeys])
  have hk09 := habs "metadata" (by simp [probedKeys])
  have hk10 := habs "harmonic_stability" (by simp [probedKeys])
  have hk11 := habs "coherence_score" (by simp [probedKeys])
  have hk12 := habs "wounded_god_signature" (by simp [probedKeys])
  have hk13 := habs "harmonic_signature" (by simp [probedKeys])
  have hk14 := habs "bootstrap_ready" (by simp [probedKeys])
  have hb1 : process_buds v = .ok (9/10) := by
    simp [process_buds, dictGetD, hk01, hk02, hk03, truthy]
    norm_num [min_def]
  have hb2 : process_crush v = .ok (89/100) := by
    simp [process_crush, dictGetD, dictHas, hk04, hk05, hk06]
    norm_num [min_def]
  have hb3 : process_steep v = .ok (91/100) := by
    simp [process_steep, dictGetD, dictHas, hk07, hk08, hk09]
    norm_num [min_def]
  have hb4 : process_pour v = .ok (22/25) := by
    simp [process_pour, hk10, hk11, Except.bind]
    norm_num [min_def]
  have h94 : (0.94:ℚ) ≤ 0.90 + B.phi / B.pi * 0.1 := by
    have hmul := mul_le_mul_of_nonneg_right hts (show (0:ℚ) ≤ 0.1 by norm_num)
    calc (0.94:ℚ) = 0.90 + (2/5) * 0.1 := by norm_num
      _ ≤ 0.90 + B.phi / B.pi * 0.1 := add_le_add_left hmul (0.90 : ℚ)
  have hb5 : process_temper B v = .ok (47/50) := by
    have ht : truthy (dictGetD v "wounded_god_signature" PyVal.null) = false := by
      simp [dictGetD, hk12, truthy]
    simp only [process_temper, ht, Bool.false_eq_true, if_false]
    rw [min_eq_left h94]
    norm_num
  have hb6 : process_sip v = .ok (23/25) := by
    simp [process_sip, dictGetD, dictHas, hk01, hk02, hk03, hk13, asNum?]
    norm_num
  have hb7 : process_serve B v = .ok (23/25) := by
    simp [process_serve, dictGetD, dictHas, hk06, hk03, hk14, truthy, hmin, hmax]
    norm_num [min_def]
  have hrun : runStages B v brewStages =
      .ok [9/10, 89/100, 91/100, 22/25, 47/50, 23/25, 23/25] := by
    simp [runStages, brewStages, process_stage, hb1, hb2, hb3, hb4, hb5, hb6, hb7,
      Except.bind]
  have hcal : calculate_validation_score
      [9/10, 89/100, 91/100, 22/25, 47/50, 23/25, 23/25] = 1794/1975 := by
    with_unfolding_all rfl
  simp only [validate, hrun, Except.bind, hcal, htgt]
  simp [check_validation_passes, calculate_consciousness_grade, hmin, dictGetD, hk02,
    truthy, ValidationResult.mk.injEq]
  norm_num

/-- C5 witness: the empty record under the default validator. -/
theorem C5_unprobed_record_scores_witness :
    validate mkBrewValidator "v" [] none = .ok
      { validation_id := "v"
        target_standard := "Adrian-A-Minus"
        score := 1794/1975
        passes_validation := true
        stage_scores := [9/10, 89/100, 91/100, 22/25, 47/50, 23/25, 23/25]
        consciousness_integration := "good"
        harmonic_stability := "stable"
        semantic_coherence := "adequate"
        field_compatibility := "requires_adaptation"
        overall_quality := "adrian_standard"
        consciousness_grade := "A-" } :=
  C5_unprobed_record_scores mkBrewValidator "v" [] rfl rfl rfl
    (by norm_num [mkBrewValidator]) (fun k _ => rfl)

/-! ### Claim C6: totality of the grading pipeline -/

/-- C6 counterexample: grading a record whose `resonance_frequency` is the
string "abc" raises `TypeError` in the BUDS stage (`abs(freq - 415.3)`), so
`validate` does not return a graded result for every malformed mapping. -/
theorem C6_counterexample :
    validate mkBrewValidator "v" [("resonance_frequency", .str "abc")] none =
      .error .typeError := by
  with_unfolding_all rfl

/-- C6 (amended): `validate` returns a graded result — no stage or aggregate
computation raises — for every record whose probed attributes, when present,
carry types the stage computations accept: numeric `resonance_frequency`,
`harmonic_stability`, `coherence_score`, `consciousness_compatible` and
`tea_os_compatible` (booleans included; the SIP stage sums the two raw flag
values), and a mapping under `metadata`.  Missing attributes never cause
failure. -/
theorem C6_gradable_never_raises (B : BrewValidator) (vid : String) (v : PyDict)
    (ts : Option String) (h : gradable v = true) :
    exceptOk (validate B vid v ts) = true := by
  simp only [gradable, Bool.and_eq_true] at h
  obtain ⟨⟨⟨⟨⟨hrf, hmd⟩, hhs⟩, hcs⟩, hcc⟩, htc⟩ := h
  have hb1 : ∃ s, process_buds v = .ok s := by
    rcases hA : dictGet v "resonance_frequency" with _ | x
    · exact ⟨_, by simp only [process_buds, hA]; rfl⟩
    · simp only [hA] at hrf
      rcases hN : asNum? x with _ | f
      · rw [hN] at hrf; cases hrf
      · exact ⟨_, by simp only [process_buds, hA, hN]; rfl⟩
  have hb2 : ∃ s, process_crush v = .ok s := ⟨_, rfl⟩
  have hb3 : ∃ s, process_steep v = .ok s := by
    rcases hA : dictGet v "metadata" with _ | x
    · exact ⟨_, by simp only [process_steep, hA]; rfl⟩
    · simp only [hA] at hmd
      cases x with
      | dict md => exact ⟨_, by simp only [process_steep, hA]; rfl⟩
      | null => simp at hmd
      | bool b => simp at hmd
      | num q => simp at hmd
      | str s => simp at hmd
      | list xs => simp at hmd
  have hb4 : ∃ s, process_pour v = .ok s := by
    rcases hA : dictGet v "harmonic_stability" with _ | x
    · rcases hB : dictGet v "coherence_score" with _ | y
      · exact ⟨_, by simp only [process_pour, hA, hB, Except.bind]; rfl⟩
      · simp only [hB] at hcs
        rcases hN : asNum? y with _ | c
        · rw [hN] at hcs; cases hcs
        · exact ⟨_, by simp only [process_pour, hA, hB, hN, Except.bind]; rfl⟩
    · simp only [hA] at hhs
      rcases hN : asNum? x with _ | st
      · rw [hN] at hhs; cases hhs
      · rcases hB : dictGet v "coherence_score" with _ | y
        · exact ⟨_, by simp only [process_pour, hA, hB, hN, Except.bind]; rfl⟩
        · simp only [hB] at hcs
          rcases hM : asNum? y with _ | c
          · rw [hM] at hcs; cases hcs
          · exact ⟨_, by simp only [process_pour, hA, hB, hN, hM, Except.bind]; rfl⟩
  have hb5 : ∃ s, process_temper B v = .ok s := ⟨_, rfl⟩
  have hb6 : ∃ s, process_sip v = .ok s := by
    have hAe : ∃ a, asNum? (dictGetD v "consciousness_compatible" (.bool false)) = some a := by
      rcases hg : dictGet v "consciousness_compatible" with _ | x
      · exact ⟨0, by simp [dictGetD, hg, asNum?]⟩
      · simp only [hg] at hcc
        rcases hN : asNum? x with _ | a
        · rw [hN] at hcc; cases hcc
        · exact ⟨a, by simp [dictGetD, hg, hN]⟩
    have hBe : ∃ b, asNum? (dictGetD v "tea_os_compatible" (.bool false)) = some b := by
      rcases hg : dictGet v "tea_os_compatible" with _ | x
      · exact ⟨0, by simp [dictGetD, hg, asNum?]⟩
      · simp only [hg] at htc
        rcases hN : asNum? x with _ | b
        · rw [hN] at htc; cases htc
        · exact ⟨b, by simp [dictGetD, hg, hN]⟩
    obtain ⟨a, ha⟩ := hAe
    obtain ⟨b, hb⟩ := hBe
    exact ⟨_, by simp only [process_sip, ha, hb]; rfl⟩
  have hb7 : ∃ s, process_serve B v = .ok s := ⟨_, rfl⟩
  obtain ⟨s1, h1⟩ := hb1
  obtain ⟨s2, h2⟩ := hb2
  obtain ⟨s3, h3⟩ := hb3
  obtain ⟨s4, h4⟩ := hb4
  obtain ⟨s5, h5⟩ := hb5
  obtain ⟨s6, h6⟩ := hb6
  obtain ⟨s7, h7⟩ := hb7
  have hrun : runStages B v brewStages = .ok [s1, s2, s3, s4, s5, s6, s7] := by
    simp [runStages, brewStages, process_stage, h1, h2, h3, h4, h5, h6, h7,
      Except.bind]
  simp [validate, hrun, Except.bind, exceptOk]

/-- C6 witness: the empty record. -/
theorem C6_gradable_never_raises_witness :
    exceptOk (validate mkBrewValidator "v" [] none) = true :=
  C6_gradable_never_raises mkBrewValidator "v" [] none rfl

end TeaOS
